import Mathlib

/-!
Verification of the context-management subsystem of a Go TPM2 host library
(`tpm2` package): the context wrap/unwrap envelope (`wrapContextBlob`,
`ContextSave`, `ContextLoad`), registry eviction on `Startup`, `Create`
argument handling, and the policy-assertion expiration convention.

Bytes are modelled as natural numbers below 256 inside `List Nat`.
The generic marshalling collaborator (`MarshalToBytes` / `UnmarshalFromBytes`)
and the hash library are external to the source under verification; they are
modelled from the spec with the interface properties the code relies on
(deterministic packing, length-prefixed sized buffers, fixed digest sizes).
-/

namespace TPM2

/-! ## Marshalling primitives

Modelled from the spec: the marshalling collaborator exposes
`pack(orderedFields) -> bytes` and `unpack(bytes, expectedShape)`, with
big-endian integers, length-prefixed ("sized") substructures and tagged
unions selected by a preceding discriminator.  Identical logical input
always packs to identical bytes. -/

instance {ε α : Type} [DecidableEq ε] [DecidableEq α] :
    DecidableEq (Except ε α) := fun a b =>
  match a, b with
  | .ok a, .ok b =>
    if h : a = b then isTrue (congrArg Except.ok h)
    else isFalse (fun hc => h (Except.ok.inj hc))
  | .error a, .error b =>
    if h : a = b then isTrue (congrArg Except.error h)
    else isFalse (fun hc => h (Except.error.inj hc))
  | .ok _, .error _ => isFalse (fun hc => Except.noConfusion hc)
  | .error _, .ok _ => isFalse (fun hc => Except.noConfusion hc)

def encU8 (n : Nat) : List Nat := [n % 256]

def encU16 (n : Nat) : List Nat := [n / 256 % 256, n % 256]

def encU32 (n : Nat) : List Nat :=
  [n / 16777216 % 256, n / 65536 % 256, n / 256 % 256, n % 256]

/-- A sized buffer: 16-bit big-endian length prefix followed by the payload. -/
def encSized (b : List Nat) : List Nat := encU16 b.length ++ b

def encBool (b : Bool) : List Nat := [if b then 1 else 0]

def decU8 : List Nat → Option (Nat × List Nat)
  | b :: r => some (b, r)
  | [] => none

def decU16 : List Nat → Option (Nat × List Nat)
  | b1 :: b2 :: r => some (b1 * 256 + b2, r)
  | _ => none

def decSized (l : List Nat) : Option (List Nat × List Nat) :=
  match decU16 l with
  | some (n, r) => if n ≤ r.length then some (r.take n, r.drop n) else none
  | none => none

def decBool : List Nat → Option (Bool × List Nat)
  | 0 :: r => some (false, r)
  | 1 :: r => some (true, r)
  | _ => none

/-! ## Algorithms, handles and digests

Modelled from the spec: the enumerated algorithm identifiers, handle types
derived from the handle value, and the Digest Accumulator collaborator.
The constants carry their TCG TPM2 registry values; the digest function is
external library code, modelled as a deterministic function producing a
digest of the fixed size that the algorithm defines. -/

abbrev HashAlgorithmId := Nat

def HashAlgorithmSHA1 : HashAlgorithmId := 4

def HashAlgorithmSHA256 : HashAlgorithmId := 11

def HashAlgorithmSHA384 : HashAlgorithmId := 12

def HashAlgorithmSHA512 : HashAlgorithmId := 13

/-- `HashAlgorithmId.Supported` from the spec: the supported algorithms are
SHA-1, SHA-256, SHA-384 and SHA-512. -/
def hashSupported (a : HashAlgorithmId) : Bool :=
  a == HashAlgorithmSHA1 || a == HashAlgorithmSHA256 ||
    a == HashAlgorithmSHA384 || a == HashAlgorithmSHA512

/-- `HashAlgorithmId.Size`: the digest size in bytes. -/
def digestSize (a : HashAlgorithmId) : Nat :=
  if a = HashAlgorithmSHA1 then 20
  else if a = HashAlgorithmSHA256 then 32
  else if a = HashAlgorithmSHA384 then 48
  else if a = HashAlgorithmSHA512 then 64
  else 0

/-- Modelled from the spec: the hash function behind the Digest Accumulator.
The compression function itself is external library code (crypto package);
the model keeps the properties the envelope code relies on: determinism
(identical input gives an identical digest) and a digest of exactly
`digestSize a` bytes. -/
def hashDigest (a : HashAlgorithmId) (data : List Nat) : List Nat :=
  let s := data.foldl (fun acc b => (acc * 257 + b + 1) % 65521) (a % 65521)
  (List.range (digestSize a)).map (fun i => (s * (2 * i + 1) + i) % 256)

abbrev Handle := Nat

/-- `Handle.Type`: modelled from the spec, the type is derived from the
high byte of the 32-bit handle value. -/
def handleType (h : Handle) : Nat := h / 16777216 % 256

def HandleTypePCR : Nat := 0

def HandleTypeNVIndex : Nat := 1

def HandleTypeHMACSession : Nat := 2

def HandleTypePolicySession : Nat := 3

def HandleTypePermanent : Nat := 64

def HandleTypeTransient : Nat := 128

def HandleTypePersistent : Nat := 129

def HandleOwner : Handle := 1073741825

def HandleNull : Handle := 1073741831

/-- Session types, with their TCG TPM2 values. -/
def SessionTypeHMAC : Nat := 0

def SessionTypePolicy : Nat := 1

def SessionTypeTrial : Nat := 3

/-- Policy-HMAC sub-types (`policyHMACType`); the largest defined value is
`policyHMACTypeMax`. -/
def policyHMACTypeMax : Nat := 2

/-- Symmetric algorithm identifiers (`SymAlgorithmId`). -/
def SymAlgorithmAES : Nat := 6

def SymAlgorithmXOR : Nat := 10

def SymAlgorithmNull : Nat := 16

def SymAlgorithmSM4 : Nat := 19

def SymAlgorithmCamellia : Nat := 38

def SymModeCFB : Nat := 67

/-- `SymDef`: a symmetric algorithm definition (algorithm, key bits and
mode).  Modelled from the spec: the structure is marshalled by the
collaborator; only `Algorithm` and `Mode` are inspected by this core. -/
structure SymDef where
  Algorithm : Nat
  KeyBits : Nat
  Mode : Nat
  deriving Repr, DecidableEq

def encSymDef (s : SymDef) : List Nat :=
  encU16 s.Algorithm ++ encU16 s.KeyBits ++ encU16 s.Mode

def decSymDef (l : List Nat) : Option (SymDef × List Nat) :=
  match decU16 l with
  | none => none
  | some (alg, r1) =>
    match decU16 r1 with
    | none => none
    | some (kb, r2) =>
      match decU16 r2 with
      | none => none
      | some (m, r3) => some (⟨alg, kb, m⟩, r3)

/-- The public area of an object.  Modelled from the spec: beyond its type
and name algorithm the public area is opaque to this core, needing only to
be marshalled; `body` stands for the remaining marshalled fields. -/
structure Public where
  PubType : Nat
  NameAlg : HashAlgorithmId
  body : List Nat
  deriving Repr, DecidableEq

def encPublic (p : Public) : List Nat :=
  encU16 p.PubType ++ encU16 p.NameAlg ++ p.body

/-- Decoder for a `Public` occupying a whole (sized) region. -/
def decPublicAll (l : List Nat) : Option Public :=
  match decU16 l with
  | none => none
  | some (t, r1) =>
    match decU16 r1 with
    | none => none
    | some (na, body) => some ⟨t, na, body⟩

/-- Modelled from the spec: an object's Name is the hash-algorithm-tagged
digest of its marshalled public area under the public area's own name
algorithm. -/
def publicName (p : Public) : List Nat :=
  encU16 p.NameAlg ++ hashDigest p.NameAlg (encPublic p)

/-- `Public.compareName`: modelled from the spec, the Name must equal the
digest of the public area under the public area's own name algorithm. -/
def compareName (p : Public) (n : List Nat) : Bool := n == publicName p

/-! ## Resource context data (the wrapped host-side metadata)

`objectContextData`, `sessionContextData`, `resourceContextDataU` and
`resourceContextData` from the source, with the union modelled as a closed
sum selected by the `ContextType` discriminator byte. -/

/-- `objectContextData`: the host-side metadata wrapped for an object — the
sized public area and the Name. -/
structure objectContextData where
  Public : Public
  Name : List Nat
  deriving Repr, DecidableEq

/-- `sessionContextData`: the host-side metadata wrapped for a session. -/
structure sessionContextData where
  IsAudit : Bool
  IsExclusive : Bool
  HashAlg : HashAlgorithmId
  SessionType : Nat
  PolicyHMACType : Nat
  IsBound : Bool
  BoundEntity : List Nat
  SessionKey : List Nat
  NonceCaller : List Nat
  NonceTPM : List Nat
  Symmetric : SymDef
  deriving Repr, DecidableEq

def contextTypeObject : Nat := 0

def contextTypeSession : Nat := 1

/-- `resourceContextDataU`: the tagged union over the two variants. -/
inductive resourceContextDataU where
  | object (d : objectContextData)
  | session (d : sessionContextData)
  deriving Repr, DecidableEq

/-- The discriminator value the union marshals under (`ContextType`). -/
def resourceContextDataU.contextType : resourceContextDataU → Nat
  | .object _ => contextTypeObject
  | .session _ => contextTypeSession

/-- `resourceContextData`: discriminator, variant metadata and the TPM's
opaque context blob. -/
structure resourceContextData where
  Data : resourceContextDataU
  TPMBlob : List Nat
  deriving Repr, DecidableEq

def encObjectData (d : objectContextData) : List Nat :=
  encSized (encPublic d.Public) ++ encSized d.Name

def decObjectData (l : List Nat) : Option (objectContextData × List Nat) :=
  match decSized l with
  | none => none
  | some (pb, r1) =>
    match decPublicAll pb with
    | none => none
    | some p =>
      match decSized r1 with
      | none => none
      | some (n, r2) => some (⟨p, n⟩, r2)

def encSessionData (d : sessionContextData) : List Nat :=
  encBool d.IsAudit ++ encBool d.IsExclusive ++ encU16 d.HashAlg ++
    encU8 d.SessionType ++ encU8 d.PolicyHMACType ++ encBool d.IsBound ++
    encSized d.BoundEntity ++ encSized d.SessionKey ++
    encSized d.NonceCaller ++ encSized d.NonceTPM ++ encSymDef d.Symmetric

def decSessionData (l : List Nat) : Option (sessionContextData × List Nat) :=
  match decBool l with
  | none => none
  | some (ia, r1) =>
    match decBool r1 with
    | none => none
    | some (ie, r2) =>
      match decU16 r2 with
      | none => none
      | some (ha, r3) =>
        match decU8 r3 with
        | none => none
        | some (st, r4) =>
          match decU8 r4 with
          | none => none
          | some (ph, r5) =>
            match decBool r5 with
            | none => none
            | some (ib, r6) =>
              match decSized r6 with
              | none => none
              | some (be, r7) =>
                match decSized r7 with
                | none => none
                | some (sk, r8) =>
                  match decSized r8 with
                  | none => none
                  | some (nc, r9) =>
                    match decSized r9 with
                    | none => none
                    | some (nt, r10) =>
                      match decSymDef r10 with
                      | none => none
                      | some (sym, r11) =>
                        some (⟨ia, ie, ha, st, ph, ib, be, sk, nc, nt, sym⟩, r11)

def encRCD (d : resourceContextData) : List Nat :=
  encU8 d.Data.contextType ++
    (match d.Data with
     | .object o => encObjectData o
     | .session s => encSessionData s) ++
    encSized d.TPMBlob

def decRCD (l : List Nat) : Option resourceContextData :=
  match decU8 l with
  | none => none
  | some (ct, r1) =>
    if ct = contextTypeObject then
      match decObjectData r1 with
      | none => none
      | some (o, r2) =>
        match decSized r2 with
        | none => none
        | some (blob, _) => some ⟨.object o, blob⟩
    else if ct = contextTypeSession then
      match decSessionData r1 with
      | none => none
      | some (s, r2) =>
        match decSized r2 with
        | none => none
        | some (blob, _) => some ⟨.session s, blob⟩
    else none

/-! ## Marshalling well-formedness and round trips

The marshalling collaborator packs integer fields into their fixed widths
and sized buffers under a 16-bit length; the predicates below state the
bounds under which a value survives packing unchanged. -/

def objectDataWf (d : objectContextData) : Prop :=
  d.Public.PubType < 65536 ∧ d.Public.NameAlg < 65536 ∧
    (encPublic d.Public).length < 65536 ∧ d.Name.length < 65536

instance (d : objectContextData) : Decidable (objectDataWf d) := by
  unfold objectDataWf; infer_instance

def sessionDataWf (d : sessionContextData) : Prop :=
  d.HashAlg < 65536 ∧ d.SessionType < 256 ∧ d.PolicyHMACType < 256 ∧
    d.BoundEntity.length < 65536 ∧ d.SessionKey.length < 65536 ∧
    d.NonceCaller.length < 65536 ∧ d.NonceTPM.length < 65536 ∧
    d.Symmetric.Algorithm < 65536 ∧ d.Symmetric.KeyBits < 65536 ∧
    d.Symmetric.Mode < 65536

instance (d : sessionContextData) : Decidable (sessionDataWf d) := by
  unfold sessionDataWf; infer_instance

def rcdWf (d : resourceContextData) : Prop :=
  (match d.Data with
   | .object o => objectDataWf o
   | .session s => sessionDataWf s) ∧ d.TPMBlob.length < 65536 ∧
    (encRCD d).length < 65536

instance (d : resourceContextData) : Decidable (rcdWf d) := by
  unfold rcdWf; cases d.Data <;> simp <;> infer_instance

/-! ## Handle contexts, the registry and the TPM context

`objectContext` carries a handle, public area and name; `sessionContext`
carries a handle, the usability flag and the same field set that
`sessionContextData` wraps (grouped here in one structure so the wrapped
metadata and the live session state share a type, field for field as in the
source).  `other` stands for the remaining handle-context kinds (permanent,
PCR, NV index, persistent), of which only the handle is relevant here. -/

inductive HandleContext where
  | object (handle : Handle) (public : Public) (name : List Nat)
  | session (handle : Handle) (usable : Bool) (data : sessionContextData)
  | other (handle : Handle)
  deriving Repr, DecidableEq

def HandleContext.handle : HandleContext → Handle
  | .object h _ _ => h
  | .session h _ _ => h
  | .other h => h

/-- The `Context` structure returned by `TPM2_ContextSave` and passed to
`TPM2_ContextLoad`. -/
structure Context where
  Sequence : Nat
  SavedHandle : Handle
  Hierarchy : Handle
  Blob : List Nat
  deriving Repr, DecidableEq

/-- The host-side state of a `TPMContext` that the context commands touch:
the resource registry (a map keyed by handle, modelled as an association
list with distinct keys) and the currently tracked exclusive session
(modelled by its registry key; the source tracks it by pointer identity,
which for registry members coincides with the key). -/
structure TPMState where
  resources : List (Handle × HandleContext)
  exclusiveSession : Option Handle
  deriving Repr, DecidableEq

def lookupResource (st : TPMState) (h : Handle) : Option HandleContext :=
  (st.resources.find? (fun e => e.1 == h)).map Prod.snd

/-- Modelled from the spec: `add` inserts keyed by handle, overwriting any
stale entry for the same handle. -/
def addHandleContext (st : TPMState) (rc : HandleContext) : TPMState :=
  { st with resources :=
      (rc.handle, rc) :: st.resources.filter (fun e => e.1 ≠ rc.handle) }

/-- Modelled from the spec: `evict` removes the entry for a handle and is
idempotent. -/
def evictHandle (rs : List (Handle × HandleContext)) (h : Handle) :
    List (Handle × HandleContext) :=
  rs.filter (fun e => e.1 ≠ h)

/-- Errors, classified along the spec's taxonomy.  The `loadError` family
mirrors the error strings of `ContextLoad` (the spec's *integrity* and
checksum errors), `invalidParam` mirrors `makeInvalidParamError`,
`invalidResponse` mirrors `InvalidResponseError`, `tpm` stands for a
device-reported error propagated verbatim, and `invariantViolation` models
the panic on a marshalling failure of already-validated data. -/
inductive Err where
  | invalidParam (s : String)
  | loadError (s : String)
  | invalidResponse (s : String)
  | tpm (code : Nat)
  | invariantViolation (s : String)
  deriving Repr, DecidableEq

/-! ## wrapContextBlob -/

/-- The `switch` at the head of `wrapContextBlob`: the `resourceContextData`
value `d` built for the resource's variant (discriminator, variant-specific
metadata and the TPM's opaque blob).  For any other variant the union stays
unfilled and marshalling `d` fails, on which the source panics. -/
def wrapInner (context : HandleContext) (tpmBlob : List Nat) :
    Option resourceContextData :=
  match context with
  | .object _ public name => some ⟨.object ⟨public, name⟩, tpmBlob⟩
  | .session _ _ sd => some ⟨.session sd, tpmBlob⟩
  | .other _ => none

/-- The tail of `wrapContextBlob`: a SHA-256 checksum over the packed inner
data, then `MarshalToBytes(HashAlgorithmSHA256, checksum, data)`. -/
def packChecksummed (data : List Nat) : List Nat :=
  encU16 HashAlgorithmSHA256 ++
    encSized (hashDigest HashAlgorithmSHA256 data) ++ encSized data

/-- `wrapContextBlob`: selects the resource's variant, packs the
variant-specific metadata with the TPM's opaque blob, computes a SHA-256
checksum over the packed inner data and packs
`(checksumAlgorithm, checksum, innerData)` as the final blob.  The panic on
a marshalling failure is modelled as `Err.invariantViolation`. -/
def wrapContextBlob (tpmBlob : List Nat) (context : HandleContext) :
    Except Err (List Nat) :=
  match wrapInner context tpmBlob with
  | none =>
    .error (.invariantViolation "cannot marshal wrapped resource context data")
  | some d => .ok (packChecksummed (encRCD d))

/-! ## ContextSave

The device dispatch (`RunCommand`) is a black-box collaborator; its result
is passed in as `resp`, the `Context` the TPM would return.  The returned
pair is the updated `saveContext` (a saved session becomes unusable) and
the `Context` whose blob has been wrapped. -/

def ContextSave (saveContext : HandleContext) (resp : Except Err Context) :
    Except Err (HandleContext × Context) :=
  match saveContext with
  | .session _ false _ =>
    .error (.invalidParam "saveContext: unusable session HandleContext")
  | _ =>
    match resp with
    | .error e => .error e
    | .ok context =>
      match wrapContextBlob context.Blob saveContext with
      | .error e => .error e
      | .ok blob =>
        let saveContext' :=
          match saveContext with
          | .session h _ sd => HandleContext.session h false sd
          | rc => rc
        .ok (saveContext', { context with Blob := blob })

/-! ## ContextLoad

`ContextLoad` is split into the stages of the source function: unpacking
and checking the outer envelope (lines up to the checksum comparison and
the unmarshalling of the inner data), the per-variant cross-validation
switch, and the post-command stage that builds the restored handle context
from the handle the TPM returned. -/

/-- The outer unpack of `ContextLoad`: `UnmarshalFromBytes(context.Blob,
&integrityAlg, &integrity, &data)`. -/
def unwrapOuter (blob : List Nat) :
    Except Err (HashAlgorithmId × List Nat × List Nat) :=
  match decU16 blob with
  | none =>
    .error (.loadError "cannot load context: cannot unpack checksum and data blob")
  | some (integrityAlg, r1) =>
    match decSized r1 with
    | none =>
      .error (.loadError "cannot load context: cannot unpack checksum and data blob")
    | some (integrity, r2) =>
      match decSized r2 with
      | none =>
        .error (.loadError "cannot load context: cannot unpack checksum and data blob")
      | some (data, _) => .ok (integrityAlg, integrity, data)

/-- The checksum stage of `ContextLoad`: reject an unsupported checksum
algorithm, recompute the checksum over the inner data with the algorithm
named in the envelope and compare it with the stored checksum, then
unmarshal the inner data.  (The source's `default` case for an unknown
`ContextType` is subsumed here: the inner unmarshal already fails on an
unknown union selector.) -/
def checkContextBlob (blob : List Nat) : Except Err resourceContextData :=
  match unwrapOuter blob with
  | .error e => .error e
  | .ok (integrityAlg, integrity, data) =>
    if ¬ hashSupported integrityAlg then
      .error (.loadError "cannot load context: invalid checksum algorithm")
    else if hashDigest integrityAlg data ≠ integrity then
      .error (.loadError "cannot load context: invalid checksum")
    else
      match decRCD data with
      | none => .error (.loadError "cannot load context: cannot unmarshal data blob")
      | some d => .ok d

/-- The per-variant cross-validation switch of `ContextLoad`, checked after
the checksum passes; `none` means the data passed every rule. -/
def validateContextData (savedHandle : Handle) (d : resourceContextData) :
    Option Err :=
  match d.Data with
  | .object dd =>
    if handleType savedHandle ≠ HandleTypeTransient then
      some (.loadError "cannot load context: inconsistent handle type")
    else if ¬ compareName dd.Public dd.Name then
      some (.loadError "cannot load context for object: public area and name do not match")
    else none
  | .session dd =>
    if handleType savedHandle ≠ HandleTypeHMACSession ∧
        handleType savedHandle ≠ HandleTypePolicySession then
      some (.loadError "cannot load context: inconsistent handle type")
    else if ¬ dd.IsAudit ∧ dd.IsExclusive then
      some (.loadError "cannot load context for session: inconsistent audit attributes")
    else if ¬ hashSupported dd.HashAlg then
      some (.loadError "cannot load context for session: invalid hash algorithm")
    else if dd.SessionType ≠ SessionTypeHMAC ∧ dd.SessionType ≠ SessionTypePolicy ∧
        dd.SessionType ≠ SessionTypeTrial then
      some (.loadError "cannot load context for session: invalid type")
    else if dd.PolicyHMACType > policyHMACTypeMax then
      some (.loadError "cannot load context for session: invalid value")
    else if (dd.IsBound ∧ dd.BoundEntity.length = 0) ∨
        (¬ dd.IsBound ∧ dd.BoundEntity.length > 0) then
      some (.loadError "cannot load context for session: inconsistent properties")
    else if dd.SessionKey.length ≠ digestSize dd.HashAlg ∧
        dd.SessionKey.length ≠ 0 then
      some (.loadError "cannot load context for session: unexpected session key size")
    else if dd.NonceCaller.length ≠ digestSize dd.HashAlg ∨
        dd.NonceTPM.length ≠ digestSize dd.HashAlg then
      some (.loadError "cannot load context for session: unexpected nonce size")
    else if dd.Symmetric.Algorithm ≠ SymAlgorithmAES ∧
        dd.Symmetric.Algorithm ≠ SymAlgorithmXOR ∧
        dd.Symmetric.Algorithm ≠ SymAlgorithmNull ∧
        dd.Symmetric.Algorithm ≠ SymAlgorithmSM4 ∧
        dd.Symmetric.Algorithm ≠ SymAlgorithmCamellia then
      some (.loadError "cannot load context for session: invalid symmetric algorithm")
    else if (dd.Symmetric.Algorithm = SymAlgorithmAES ∨
        dd.Symmetric.Algorithm = SymAlgorithmSM4 ∨
        dd.Symmetric.Algorithm = SymAlgorithmCamellia) ∧
        dd.Symmetric.Mode ≠ SymModeCFB then
      some (.loadError "cannot load context for session: invalid symmetric mode")
    else none

/-- Everything `ContextLoad` does before the TPM command is issued. -/
def contextLoadPre (context : Context) : Except Err resourceContextData :=
  match checkContextBlob context.Blob with
  | .error e => .error e
  | .ok d =>
    match validateContextData context.SavedHandle d with
    | some e => .error e
    | none => .ok d

/-- The post-command stage of `ContextLoad`: validate the handle the TPM
returned against the blob's variant and build the restored handle context.
For a session, if a registry entry for the handle still exists it is the one
updated in place; the source's pointer comparison `sc == t.exclusiveSession`
holds exactly when that existing entry is the tracked exclusive session. -/
def contextLoadFinish (st : TPMState) (context : Context)
    (d : resourceContextData) (loadedHandle : Handle) :
    Except Err (TPMState × HandleContext) :=
  match d.Data with
  | .object dd =>
    if handleType loadedHandle ≠ HandleTypeTransient then
      .error (.invalidResponse "handle returned from TPM is the wrong type")
    else
      let rc := HandleContext.object loadedHandle dd.Public dd.Name
      .ok (addHandleContext st rc, rc)
  | .session dd =>
    if loadedHandle ≠ context.SavedHandle then
      .error (.invalidResponse "handle returned from TPM is incorrect")
    else
      let existed := (lookupResource st loadedHandle).isSome
      let dd' := { dd with IsExclusive :=
        dd.IsExclusive && (existed && st.exclusiveSession == some loadedHandle) }
      let sc := HandleContext.session loadedHandle true dd'
      .ok (addHandleContext st sc, sc)

/-- `ContextLoad`.  The device dispatch is the black-box collaborator
`resp`, mapping the `Context` sent to the TPM to the loaded handle (or a
device-reported error).  On success the result carries the new state, the
restored handle context and the `Context` that was sent to the TPM (whose
`Blob` is the unwrapped opaque TPM blob). -/
def ContextLoad (st : TPMState) (context : Option Context)
    (resp : Context → Except Err Handle) :
    Except Err (TPMState × HandleContext × Context) :=
  match context with
  | none => .error (.invalidParam "context: nil value")
  | some context =>
    match contextLoadPre context with
    | .error e => .error e
    | .ok d =>
      let sent : Context :=
        { Sequence := context.Sequence, SavedHandle := context.SavedHandle,
          Hierarchy := context.Hierarchy, Blob := d.TPMBlob }
      match resp sent with
      | .error e => .error e
      | .ok loadedHandle =>
        match contextLoadFinish st context d loadedHandle with
        | .error e => .error e
        | .ok (st', rc) => .ok (st', rc, sent)

/-! ## Startup -/

/-- The `switch` guarding the eviction loop of `Startup`: entries with a
PCR, NV index, permanent or persistent handle type are skipped. -/
def exemptOnStartup (rc : HandleContext) : Bool :=
  handleType rc.handle == HandleTypePCR ||
    handleType rc.handle == HandleTypeNVIndex ||
    handleType rc.handle == HandleTypePermanent ||
    handleType rc.handle == HandleTypePersistent

/-- The eviction loop of `Startup`: iterate over the registry entries,
evicting every non-exempt one. -/
def startupLoop : List (Handle × HandleContext) →
    List (Handle × HandleContext) → List (Handle × HandleContext)
  | [], rs => rs
  | e :: rest, rs =>
    startupLoop rest (if exemptOnStartup e.2 then rs else evictHandle rs e.2.handle)

/-- `Startup`: run the command (black-box dispatch result `resp`); on
success evict every registry entry other than the PCR / NV index /
permanent / persistent ones. -/
def Startup (st : TPMState) (startupType : Nat) (resp : Except Err Unit) :
    Except Err TPMState :=
  match resp with
  | .error e => .error e
  | .ok _ => .ok { st with resources := startupLoop st.resources st.resources }

/-! ## Create

`Create` from the object-command file.  `SensitiveCreate` is opaque to this
core beyond being marshalled; `checkResource` models the external
`checkResourceContextParam` collaborator and `run` the command dispatch. -/

structure SensitiveCreate where
  userAuth : List Nat
  data : List Nat
  deriving Repr, DecidableEq

/-- The zero value `&SensitiveCreate` substituted for a nil `inSensitive`. -/
def emptySensitiveCreate : SensitiveCreate := ⟨[], []⟩

structure CreateArgs where
  parentHandle : Handle
  inSensitive : SensitiveCreate
  inPublic : Public
  outsideInfo : List Nat
  creationPCR : List Nat
  deriving Repr, DecidableEq

structure CreateResult where
  outPrivate : List Nat
  outPublic : Public
  creationData : List Nat
  creationHash : List Nat
  creationTicket : List Nat
  deriving Repr, DecidableEq

def Create (parentHandle : Option Handle) (inSensitive : Option SensitiveCreate)
    (inPublic : Option Public) (outsideInfo creationPCR : List Nat)
    (checkResource : Handle → Option Err)
    (run : CreateArgs → Except Err CreateResult) : Except Err CreateResult :=
  match parentHandle with
  | none => .error (.invalidParam "nil parentHandle")
  | some ph =>
    let inSensitive' := inSensitive.getD emptySensitiveCreate
    match inPublic with
    | none => .error (.invalidParam "nil inPublic")
    | some pub =>
      match checkResource ph with
      | some e => .error e
      | none => run ⟨ph, inSensitive', pub, outsideInfo, creationPCR⟩

/-! ## Policy assertion expiration convention

Modelled from the spec: the `PolicySecret` / `PolicySigned` implementations
and the TPM behaviour they expose are outside the source under
verification (only their tests are present); §4.5 of the spec fixes the
sign convention for the `expiration` argument, which the tests assert.  A
non-negative expiration issues no persistent ticket: the returned timeout
is empty and the ticket's hierarchy is the null handle.  A negative
expiration requests a reusable ticket valid for `|expiration|` time units,
tied to the owner hierarchy, with a non-empty timeout blob. -/

def TagAuthSecret : Nat := 32805

def TagAuthSigned : Nat := 32806

structure TkAuth where
  Tag : Nat
  Hierarchy : Handle
  Digest : List Nat
  deriving Repr, DecidableEq

/-- Modelled from the spec: the timeout blob a policy assertion returns —
empty for a non-negative expiration, the encoded absolute expiration time
otherwise. -/
def policyAssertionTimeout (expiration : Int) : List Nat :=
  if 0 ≤ expiration then [] else encU32 expiration.natAbs

/-- Modelled from the spec: the hierarchy recorded in the returned ticket —
the null handle for a non-negative expiration, the owner hierarchy for a
negative one. -/
def policyAssertionHierarchy (expiration : Int) : Handle :=
  if 0 ≤ expiration then HandleNull else HandleOwner

/-- Modelled from the spec: the `(timeout, ticket)` pair returned by a
successful `PolicySecret` call. -/
def PolicySecret (authName : List Nat) (policyRef : List Nat)
    (expiration : Int) : List Nat × TkAuth :=
  (policyAssertionTimeout expiration,
    ⟨TagAuthSecret, policyAssertionHierarchy expiration, []⟩)

/-- Modelled from the spec: the `(timeout, ticket)` pair returned by a
successful `PolicySigned` call. -/
def PolicySigned (authKeyName : List Nat) (policyRef : List Nat)
    (expiration : Int) : List Nat × TkAuth :=
  (policyAssertionTimeout expiration,
    ⟨TagAuthSigned, policyAssertionHierarchy expiration, []⟩)

/-! ## The validation rules as the spec states them

Spec-side restatements of the cross-validation rules, used to compare the
source's validation switch against the spec's wording. -/

/-- The spec's object rules: the saved handle type must be transient and
the Name must equal the (algorithm-tagged) digest of the restored public
area under its own name algorithm. -/
def objectRulesOk (savedHandle : Handle) (dd : objectContextData) : Prop :=
  handleType savedHandle = HandleTypeTransient ∧ dd.Name = publicName dd.Public

instance (sh : Handle) (dd : objectContextData) : Decidable (objectRulesOk sh dd) := by
  unfold objectRulesOk; infer_instance

/-- The spec's session rules, in the order the spec lists them. -/
def sessionRulesOk (savedHandle : Handle) (dd : sessionContextData) : Prop :=
  (handleType savedHandle = HandleTypeHMACSession ∨
    handleType savedHandle = HandleTypePolicySession) ∧
  (dd.IsExclusive → dd.IsAudit) ∧
  hashSupported dd.HashAlg = true ∧
  (dd.SessionType = SessionTypeHMAC ∨ dd.SessionType = SessionTypePolicy ∨
    dd.SessionType = SessionTypeTrial) ∧
  dd.PolicyHMACType ≤ policyHMACTypeMax ∧
  (dd.IsBound ↔ dd.BoundEntity.length > 0) ∧
  (dd.SessionKey.length = 0 ∨ dd.SessionKey.length = digestSize dd.HashAlg) ∧
  dd.NonceCaller.length = digestSize dd.HashAlg ∧
  dd.NonceTPM.length = digestSize dd.HashAlg ∧
  (dd.Symmetric.Algorithm = SymAlgorithmAES ∨
    dd.Symmetric.Algorithm = SymAlgorithmXOR ∨
    dd.Symmetric.Algorithm = SymAlgorithmNull ∨
    dd.Symmetric.Algorithm = SymAlgorithmSM4 ∨
    dd.Symmetric.Algorithm = SymAlgorithmCamellia) ∧
  ((dd.Symmetric.Algorithm = SymAlgorithmAES ∨
    dd.Symmetric.Algorithm = SymAlgorithmSM4 ∨
    dd.Symmetric.Algorithm = SymAlgorithmCamellia) →
    dd.Symmetric.Mode = SymModeCFB)

instance (sh : Handle) (dd : sessionContextData) : Decidable (sessionRulesOk sh dd) := by
  unfold sessionRulesOk; infer_instance

/-- The rules for a whole `resourceContextData`, by variant. -/
def contextRulesOk (savedHandle : Handle) (d : resourceContextData) : Prop :=
  match d.Data with
  | .object dd => objectRulesOk savedHandle dd
  | .session dd => sessionRulesOk savedHandle dd

instance (sh : Handle) (d : resourceContextData) : Decidable (contextRulesOk sh d) := by
  unfold contextRulesOk; cases d.Data <;> infer_instance

/-! ## Concrete sample resources (used to instantiate the theorems) -/

def samplePublic : Public := ⟨1, HashAlgorithmSHA256, [0, 1, 2, 3]⟩

def sampleObjectHandle : Handle := 2147483648

def sampleSym : SymDef := ⟨SymAlgorithmAES, 128, SymModeCFB⟩

def sampleSessionData : sessionContextData :=
  ⟨false, false, HashAlgorithmSHA256, SessionTypeHMAC, 0, false, [], [],
    List.replicate 32 1, List.replicate 32 2, sampleSym⟩

def sampleSessionHandle : Handle := 33554432

/-- A saved session that was both audit and exclusive: the shape on which
the reload drops exclusivity. -/
def exSessionData : sessionContextData :=
  ⟨true, true, HashAlgorithmSHA256, SessionTypeHMAC, 0, false, [], [],
    List.replicate 32 1, List.replicate 32 2, sampleSym⟩

def exRestoredData : sessionContextData :=
  ⟨true, false, HashAlgorithmSHA256, SessionTypeHMAC, 0, false, [], [],
    List.replicate 32 1, List.replicate 32 2, sampleSym⟩

def exBlob : List Nat :=
  match wrapContextBlob [7] (.session sampleSessionHandle true exSessionData) with
  | .ok w => w
  | .error _ => []

def sampleObjectBlob : List Nat :=
  match wrapContextBlob [9]
      (.object sampleObjectHandle samplePublic (publicName samplePublic)) with
  | .ok w => w
  | .error _ => []

/-! ## Theorems -/

theorem decU8_enc (n : Nat) (hn : n < 256) (r : List Nat) :
    decU8 (encU8 n ++ r) = some (n, r) := by
  simp [decU8, encU8, Nat.mod_eq_of_lt hn]

theorem decU16_enc (n : Nat) (hn : n < 65536) (r : List Nat) :
    decU16 (encU16 n ++ r) = some (n, r) := by
  have hdiv : n / 256 < 256 := by omega
  simp only [encU16, Nat.mod_eq_of_lt hdiv, List.cons_append, List.nil_append, decU16]
  congr 1
  congr 1
  omega

theorem decSized_enc (b : List Nat) (hb : b.length < 65536) (r : List Nat) :
    decSized (encSized b ++ r) = some (b, r) := by
  simp only [decSized, encSized, List.append_assoc, decU16_enc b.length hb (b ++ r)]
  simp

theorem decBool_enc (b : Bool) (r : List Nat) :
    decBool (encBool b ++ r) = some (b, r) := by
  cases b <;> simp [decBool, encBool]

theorem hashDigest_length (a : HashAlgorithmId) (data : List Nat) :
    (hashDigest a data).length = digestSize a := by
  simp [hashDigest]

theorem decSymDef_enc (s : SymDef) (ha : s.Algorithm < 65536)
    (hk : s.KeyBits < 65536) (hm : s.Mode < 65536) (r : List Nat) :
    decSymDef (encSymDef s ++ r) = some (s, r) := by
  simp only [decSymDef, encSymDef, List.append_assoc,
    decU16_enc s.Algorithm ha, decU16_enc s.KeyBits hk, decU16_enc s.Mode hm]

theorem decPublicAll_enc (p : Public) (ht : p.PubType < 65536)
    (hn : p.NameAlg < 65536) : decPublicAll (encPublic p) = some p := by
  simp only [decPublicAll, encPublic, List.append_assoc,
    decU16_enc p.PubType ht, decU16_enc p.NameAlg hn]

theorem decObjectData_enc (d : objectContextData) (hwf : objectDataWf d)
    (r : List Nat) : decObjectData (encObjectData d ++ r) = some (d, r) := by
  obtain ⟨h1, h2, h3, h4⟩ := hwf
  simp only [decObjectData, encObjectData, List.append_assoc,
    decSized_enc (encPublic d.Public) h3, decPublicAll_enc d.Public h1 h2,
    decSized_enc d.Name h4]

theorem decSessionData_enc (d : sessionContextData) (hwf : sessionDataWf d)
    (r : List Nat) : decSessionData (encSessionData d ++ r) = some (d, r) := by
  obtain ⟨h1, h2, h3, h4, h5, h6, h7, h8, h9, h10⟩ := hwf
  simp only [decSessionData, encSessionData, List.append_assoc,
    decBool_enc, decU16_enc d.HashAlg h1, decU8_enc d.SessionType h2,
    decU8_enc d.PolicyHMACType h3, decSized_enc d.BoundEntity h4,
    decSized_enc d.SessionKey h5, decSized_enc d.NonceCaller h6,
    decSized_enc d.NonceTPM h7, decSymDef_enc d.Symmetric h8 h9 h10]

theorem decRCD_enc (d : resourceContextData) (hwf : rcdWf d) :
    decRCD (encRCD d) = some d := by
  obtain ⟨data, blob⟩ := d
  have hb : blob.length < 65536 := hwf.2.1
  have hts : decSized (encSized blob) = some (blob, []) := by
    simpa using decSized_enc blob hb []
  cases data with
  | object o =>
    have hv : objectDataWf o := hwf.1
    have henc : encRCD ⟨.object o, blob⟩ =
        encU8 0 ++ (encObjectData o ++ encSized blob) := by
      simp [encRCD, resourceContextDataU.contextType, contextTypeObject,
        List.append_assoc]
    simp [decRCD, henc, decU8_enc 0 (by decide), contextTypeObject,
      contextTypeSession, decObjectData_enc o hv, hts]
  | session s =>
    have hv : sessionDataWf s := hwf.1
    have henc : encRCD ⟨.session s, blob⟩ =
        encU8 1 ++ (encSessionData s ++ encSized blob) := by
      simp [encRCD, resourceContextDataU.contextType, contextTypeSession,
        List.append_assoc]
    simp [decRCD, henc, decU8_enc 1 (by decide), contextTypeObject,
      contextTypeSession, decSessionData_enc s hv, hts]

/-! ## Envelope lemmas -/

theorem unwrapOuter_parts (alg : Nat) (halg : alg < 65536) (cks : List Nat)
    (hck : cks.length < 65536) (data : List Nat) (hlen : data.length < 65536) :
    unwrapOuter (encU16 alg ++ encSized cks ++ encSized data) =
      .ok (alg, cks, data) := by
  have h1 : decU16 (encU16 alg ++ (encSized cks ++ encSized data)) =
      some (alg, encSized cks ++ encSized data) := decU16_enc alg halg _
  have h2 := decSized_enc cks hck (encSized data)
  have h3 : decSized (encSized data) = some (data, []) := by
    simpa using decSized_enc data hlen []
  simp [unwrapOuter, List.append_assoc, h1, h2, h3]

theorem unwrapOuter_pack (data : List Nat) (hlen : data.length < 65536) :
    unwrapOuter (packChecksummed data) =
      .ok (HashAlgorithmSHA256, hashDigest HashAlgorithmSHA256 data, data) := by
  have hck : (hashDigest HashAlgorithmSHA256 data).length < 65536 := by
    rw [hashDigest_length]; decide
  rw [packChecksummed]
  exact unwrapOuter_parts HashAlgorithmSHA256 (by decide) _ hck data hlen

theorem checkContextBlob_pack (d : resourceContextData) (hwf : rcdWf d) :
    checkContextBlob (packChecksummed (encRCD d)) = .ok d := by
  simp [checkContextBlob, unwrapOuter_pack (encRCD d) hwf.2.2, hashSupported,
    HashAlgorithmSHA256, decRCD_enc d hwf]

theorem set_ne_of_getD (l : List Nat) (i : Nat) (hi : i < l.length) (b : Nat)
    (hb : b ≠ l.getD i 0) : l.set i b ≠ l := by
  intro he
  apply hb
  have h1 : (l.set i b).getD i 0 = b := by
    rw [List.getD_eq_getElem?_getD, List.getElem?_set_self (by simpa using hi)]
    rfl
  rw [← h1, he]

/-- Flipping the byte at offset `i` inside the stored checksum region of a
wrapped blob (the checksum occupies bytes 4 to 35 of the envelope) yields a
blob whose recomputed checksum no longer matches the stored one. -/
theorem checkContextBlob_flip (data : List Nat) (hlen : data.length < 65536)
    (i : Nat) (hi : i < 32) (b : Nat)
    (hb : b ≠ (hashDigest HashAlgorithmSHA256 data).getD i 0) :
    checkContextBlob ((packChecksummed data).set (4 + i) b) =
      .error (.loadError "cannot load context: invalid checksum") := by
  have hcks : (hashDigest HashAlgorithmSHA256 data).length = 32 := by
    rw [hashDigest_length]; decide
  have hi' : i < (hashDigest HashAlgorithmSHA256 data).length := by omega
  have hset : (packChecksummed data).set (4 + i) b =
      encU16 HashAlgorithmSHA256 ++
        encSized ((hashDigest HashAlgorithmSHA256 data).set i b) ++
        encSized data := by
    have hassoc : packChecksummed data =
        (encU16 HashAlgorithmSHA256 ++
          encU16 (hashDigest HashAlgorithmSHA256 data).length) ++
          (hashDigest HashAlgorithmSHA256 data ++ encSized data) := by
      simp [packChecksummed, encSized, List.append_assoc]
    have hlen4 : (encU16 HashAlgorithmSHA256 ++
        encU16 (hashDigest HashAlgorithmSHA256 data).length).length = 4 := by
      simp [encU16]
    rw [hassoc, List.set_append_right _ _ (by omega), hlen4]
    have hidx : 4 + i - 4 = i := by omega
    rw [hidx, List.set_append_left _ _ hi']
    have hlenset : ((hashDigest HashAlgorithmSHA256 data).set i b).length =
        (hashDigest HashAlgorithmSHA256 data).length := by
      simp
    simp [encSized, hlenset, List.append_assoc]
  have hckset : ((hashDigest HashAlgorithmSHA256 data).set i b).length < 65536 := by
    simp [hcks]
  rw [hset, checkContextBlob,
    unwrapOuter_parts HashAlgorithmSHA256 (by decide) _ hckset data hlen]
  have hne : hashDigest 11 data ≠ (hashDigest 11 data).set i b :=
    fun he => set_ne_of_getD _ i hi' b hb he.symm
  simp [hashSupported, HashAlgorithmSHA256, hne]

/-- `ContextLoad` fails with the error of the envelope/checksum stage,
whatever the device would have answered. -/
theorem contextLoad_error_of_check (st : TPMState) (context : Context)
    (resp : Context → Except Err Handle) (e : Err)
    (h : checkContextBlob context.Blob = .error e) :
    ContextLoad st (some context) resp = .error e := by
  simp [ContextLoad, contextLoadPre, h]

set_option maxHeartbeats 1600000 in
/-- The validation switch accepts exactly the data satisfying the spec's
cross-validation rules. -/
theorem validateContextData_none_iff (sh : Handle) (d : resourceContextData) :
    validateContextData sh d = none ↔ contextRulesOk sh d := by
  obtain ⟨data, blob⟩ := d
  cases data with
  | object dd =>
    simp only [validateContextData, contextRulesOk, objectRulesOk, compareName]
    split_ifs with h1 h2 <;> simp_all [beq_iff_eq]
  | session dd =>
    have hpos : dd.BoundEntity.length > 0 ↔ dd.BoundEntity.length ≠ 0 :=
      Nat.pos_iff_ne_zero
    simp only [contextRulesOk, sessionRulesOk]
    constructor
    · intro h
      simp only [validateContextData] at h
      split_ifs at h with h1 h2 h3 h4 h5 h6 h7 h8 h9 h10
      all_goals try simp at h
      refine ⟨by omega, ?_, h3, by omega, by omega, ?_, by omega, by omega,
        by omega, by omega, by omega⟩
      · exact fun hex => of_not_not (fun hna => h2 ⟨hna, hex⟩)
      · constructor
        · intro hb
          by_contra hnl
          exact h6 (Or.inl ⟨hb, by omega⟩)
        · intro hl
          by_contra hnb
          exact h6 (Or.inr ⟨hnb, hl⟩)
    · intro hr
      obtain ⟨r1, r2, r3, r4, r5, r6, r7, r8, r9, r10, r11⟩ := hr
      have c1 : ¬(handleType sh ≠ HandleTypeHMACSession ∧
          handleType sh ≠ HandleTypePolicySession) := by omega
      have c2 : ¬(¬ dd.IsAudit ∧ dd.IsExclusive) :=
        fun hc => hc.1 (r2 hc.2)
      have c3 : ¬¬ (hashSupported dd.HashAlg = true) := not_not_intro r3
      have c4 : ¬(dd.SessionType ≠ SessionTypeHMAC ∧
          dd.SessionType ≠ SessionTypePolicy ∧
          dd.SessionType ≠ SessionTypeTrial) := by omega
      have c5 : ¬(dd.PolicyHMACType > policyHMACTypeMax) := by omega
      have c6 : ¬((dd.IsBound ∧ dd.BoundEntity.length = 0) ∨
          (¬ dd.IsBound ∧ dd.BoundEntity.length > 0)) := by
        intro hc
        rcases hc with ⟨hb, hl⟩ | ⟨hb, hl⟩
        · exact absurd (r6.mp hb) (by omega)
        · exact hb (r6.mpr hl)
      have c7 : ¬(dd.SessionKey.length ≠ digestSize dd.HashAlg ∧
          dd.SessionKey.length ≠ 0) := by omega
      have c8 : ¬(dd.NonceCaller.length ≠ digestSize dd.HashAlg ∨
          dd.NonceTPM.length ≠ digestSize dd.HashAlg) := by omega
      have c9 : ¬(dd.Symmetric.Algorithm ≠ SymAlgorithmAES ∧
          dd.Symmetric.Algorithm ≠ SymAlgorithmXOR ∧
          dd.Symmetric.Algorithm ≠ SymAlgorithmNull ∧
          dd.Symmetric.Algorithm ≠ SymAlgorithmSM4 ∧
          dd.Symmetric.Algorithm ≠ SymAlgorithmCamellia) := by omega
      have c10 : ¬((dd.Symmetric.Algorithm = SymAlgorithmAES ∨
          dd.Symmetric.Algorithm = SymAlgorithmSM4 ∨
          dd.Symmetric.Algorithm = SymAlgorithmCamellia) ∧
          dd.Symmetric.Mode ≠ SymModeCFB) := by omega
      simp only [validateContextData]
      rw [if_neg c1, if_neg c2, if_neg c3, if_neg c4, if_neg c5, if_neg c6,
        if_neg c7, if_neg c8, if_neg c9, if_neg c10]

/-- Everything before the TPM command succeeds on a freshly wrapped,
well-formed, rule-satisfying blob and returns the wrapped data. -/
theorem contextLoadPre_pack (seq sh hier : Nat) (d : resourceContextData)
    (hwf : rcdWf d) (hrules : contextRulesOk sh d) :
    contextLoadPre ⟨seq, sh, hier, packChecksummed (encRCD d)⟩ = .ok d := by
  have hv : validateContextData sh d = none :=
    (validateContextData_none_iff sh d).mpr hrules
  simp [contextLoadPre, checkContextBlob_pack d hwf, hv]

/-! ## C1: the wrap/unwrap round trip -/

set_option maxRecDepth 10000 in
/-- C1 (counterexample): the round trip is not bit-identical on the full
session field set.  A session saved with `IsExclusive = true` reloads
successfully, with the original opaque blob, but with the exclusive flag
cleared when the reloading context is not the tracked exclusive session. -/
theorem contextLoad_roundtrip_drops_exclusive :
    ContextLoad ⟨[], none⟩ (some ⟨0, sampleSessionHandle, 0, exBlob⟩)
        (fun _ => .ok sampleSessionHandle) =
      .ok (⟨[(sampleSessionHandle,
              .session sampleSessionHandle true exRestoredData)], none⟩,
        .session sampleSessionHandle true exRestoredData,
        ⟨0, sampleSessionHandle, 0, [7]⟩) ∧
    exRestoredData ≠ exSessionData := by
  constructor
  · decide
  · decide

/-- C1 (amended): for well-formed, rule-satisfying resources, `ContextLoad`
on the output of `wrapContextBlob` succeeds and restores the metadata
bit-identically — Name and public area for an object, the session field set
for a session except the exclusive flag, which survives only when the
reloading context is the currently tracked exclusive session — and sends the
original opaque TPM blob back to the TPM unchanged. -/
theorem contextLoad_wrapContextBlob_roundtrip :
    (∀ (st : TPMState) (ho : Handle) (pub : Public) (name : List Nat)
        (tpmBlob : List Nat) (seq sh hier : Nat) (lh : Handle) (w : List Nat),
      wrapContextBlob tpmBlob (.object ho pub name) = .ok w →
      rcdWf ⟨.object ⟨pub, name⟩, tpmBlob⟩ →
      handleType sh = HandleTypeTransient →
      name = publicName pub →
      handleType lh = HandleTypeTransient →
      ContextLoad st (some ⟨seq, sh, hier, w⟩) (fun _ => .ok lh) =
        .ok (addHandleContext st (.object lh pub name), .object lh pub name,
          ⟨seq, sh, hier, tpmBlob⟩)) ∧
    (∀ (st : TPMState) (hs : Handle) (u : Bool) (sd : sessionContextData)
        (tpmBlob : List Nat) (seq sh hier : Nat) (w : List Nat),
      wrapContextBlob tpmBlob (.session hs u sd) = .ok w →
      rcdWf ⟨.session sd, tpmBlob⟩ →
      sessionRulesOk sh sd →
      ContextLoad st (some ⟨seq, sh, hier, w⟩) (fun _ => .ok sh) =
        .ok (addHandleContext st (.session sh true
            { sd with IsExclusive := sd.IsExclusive &&
              ((lookupResource st sh).isSome &&
                st.exclusiveSession == some sh) }),
          .session sh true
            { sd with IsExclusive := sd.IsExclusive &&
              ((lookupResource st sh).isSome &&
                st.exclusiveSession == some sh) },
          ⟨seq, sh, hier, tpmBlob⟩)) := by
  constructor
  · intro st ho pub name tpmBlob seq sh hier lh w hw hwf hsh hname hlh
    have hww : w = packChecksummed (encRCD ⟨.object ⟨pub, name⟩, tpmBlob⟩) := by
      simpa [wrapContextBlob, wrapInner] using hw.symm
    subst hww
    have hpre := contextLoadPre_pack seq sh hier ⟨.object ⟨pub, name⟩, tpmBlob⟩
      hwf ⟨hsh, hname⟩
    simp [ContextLoad, hpre, contextLoadFinish, hlh, HandleContext.handle]
  · intro st hs u sd tpmBlob seq sh hier w hw hwf hrules
    have hww : w = packChecksummed (encRCD ⟨.session sd, tpmBlob⟩) := by
      simpa [wrapContextBlob, wrapInner] using hw.symm
    subst hww
    have hpre := contextLoadPre_pack seq sh hier ⟨.session sd, tpmBlob⟩
      hwf hrules
    simp [ContextLoad, hpre, contextLoadFinish, HandleContext.handle]

set_option maxRecDepth 10000 in
/-- Witness for the amended C1 theorem: the round trip evaluated at a
concrete object and a concrete session. -/
theorem contextLoad_wrapContextBlob_roundtrip_witness :
    ContextLoad ⟨[], none⟩ (some ⟨0, sampleObjectHandle, 0, sampleObjectBlob⟩)
        (fun _ => .ok 2147483649) =
      .ok (addHandleContext ⟨[], none⟩
          (.object 2147483649 samplePublic (publicName samplePublic)),
        .object 2147483649 samplePublic (publicName samplePublic),
        ⟨0, sampleObjectHandle, 0, [9]⟩) ∧
    ContextLoad ⟨[], none⟩ (some ⟨0, sampleSessionHandle, 0,
        (packChecksummed (encRCD ⟨.session sampleSessionData, [7]⟩))⟩)
        (fun _ => .ok sampleSessionHandle) =
      .ok (addHandleContext ⟨[], none⟩ (.session sampleSessionHandle true
          { sampleSessionData with IsExclusive := sampleSessionData.IsExclusive &&
            ((lookupResource ⟨[], none⟩ sampleSessionHandle).isSome &&
              TPMState.exclusiveSession ⟨[], none⟩ == some sampleSessionHandle) }),
        .session sampleSessionHandle true
          { sampleSessionData with IsExclusive := sampleSessionData.IsExclusive &&
            ((lookupResource ⟨[], none⟩ sampleSessionHandle).isSome &&
              TPMState.exclusiveSession ⟨[], none⟩ == some sampleSessionHandle) },
        ⟨0, sampleSessionHandle, 0, [7]⟩) :=
  ⟨contextLoad_wrapContextBlob_roundtrip.1 ⟨[], none⟩ sampleObjectHandle
      samplePublic (publicName samplePublic) [9] 0 sampleObjectHandle 0
      2147483649 sampleObjectBlob (by decide) (by decide) (by decide) rfl
      (by decide),
    contextLoad_wrapContextBlob_roundtrip.2 ⟨[], none⟩ sampleSessionHandle true
      sampleSessionData [7] 0 sampleSessionHandle 0 _ rfl (by decide)
      (by decide)⟩

/-! ## C2: the checksum is verified on every unwrap -/

/-- C2: on every `ContextLoad` the checksum is recomputed with the
algorithm named in the outer envelope and compared with the stored one; a
mismatch fails with the integrity error whatever the device would answer
(the command is never issued, there is no retry); in particular flipping
any single byte of the stored checksum of a wrapped blob (the checksum
occupies offsets 4 to 35) makes the load fail that way. -/
theorem contextLoad_checksum_mismatch_fails :
    (∀ (st : TPMState) (seq sh hier : Nat) (blob : List Nat)
        (alg : HashAlgorithmId) (integrity data : List Nat)
        (resp : Context → Except Err Handle),
      unwrapOuter blob = .ok (alg, integrity, data) →
      hashSupported alg = true →
      hashDigest alg data ≠ integrity →
      ContextLoad st (some ⟨seq, sh, hier, blob⟩) resp =
        .error (.loadError "cannot load context: invalid checksum")) ∧
    (∀ (tpmBlob : List Nat) (hc : HandleContext) (d : resourceContextData)
        (w : List Nat) (i b : Nat),
      wrapInner hc tpmBlob = some d →
      wrapContextBlob tpmBlob hc = .ok w →
      (encRCD d).length < 65536 →
      i < 32 →
      b ≠ (hashDigest HashAlgorithmSHA256 (encRCD d)).getD i 0 →
      ∀ (st : TPMState) (seq sh hier : Nat) (resp : Context → Except Err Handle),
        ContextLoad st (some ⟨seq, sh, hier, w.set (4 + i) b⟩) resp =
          .error (.loadError "cannot load context: invalid checksum")) := by
  constructor
  · intro st seq sh hier blob alg integrity data resp hout hsup hne
    apply contextLoad_error_of_check
    simp [checkContextBlob, hout, hsup, hne]
  · intro tpmBlob hc d w i b hd hw hlen hi hb st seq sh hier resp
    have hww : w = packChecksummed (encRCD d) := by
      rw [wrapContextBlob, hd] at hw
      exact (Except.ok.inj hw).symm
    subst hww
    apply contextLoad_error_of_check
    exact checkContextBlob_flip (encRCD d) hlen i hi b hb

set_option maxRecDepth 10000 in
/-- Witness for the C2 theorem: a blob with a zeroed checksum is rejected,
and flipping byte 0 of the checksum of a concretely wrapped session blob is
rejected. -/
theorem contextLoad_checksum_mismatch_fails_witness :
    ContextLoad ⟨[], none⟩ (some ⟨0, 0, 0,
        encU16 HashAlgorithmSHA256 ++ encSized (List.replicate 32 0) ++
          encSized [1, 2, 3]⟩) (fun _ => .ok 0) =
      .error (.loadError "cannot load context: invalid checksum") ∧
    ContextLoad ⟨[], none⟩ (some ⟨0, 0, 0,
        (packChecksummed (encRCD ⟨.session sampleSessionData, [7]⟩)).set 4
          (((hashDigest HashAlgorithmSHA256
            (encRCD ⟨.session sampleSessionData, [7]⟩)).getD 0 0 + 1) % 256)⟩)
        (fun _ => .ok 0) =
      .error (.loadError "cannot load context: invalid checksum") :=
  ⟨contextLoad_checksum_mismatch_fails.1 ⟨[], none⟩ 0 0 0 _
      HashAlgorithmSHA256 (List.replicate 32 0) [1, 2, 3] _ (by decide)
      (by decide) (by decide),
    contextLoad_checksum_mismatch_fails.2 [7] (.session 0 true sampleSessionData)
      ⟨.session sampleSessionData, [7]⟩ _ 0 _ rfl rfl (by decide) (by decide)
      (by decide) ⟨[], none⟩ 0 0 0 _⟩

/-! ## C3: the shape of the wrapped blob -/

/-- C3: for both resource variants `wrapContextBlob` produces exactly
`pack(checksumAlgorithm = SHA-256, checksum, innerData)` with
`innerData = pack(contextType, variant metadata, tpmOpaqueBlob)` and
`checksum` the SHA-256 digest of the packed inner data. -/
theorem wrapContextBlob_sha256_envelope :
    (∀ (tpmBlob : List Nat) (ho : Handle) (pub : Public) (name : List Nat),
      wrapContextBlob tpmBlob (.object ho pub name) =
        .ok (encU16 HashAlgorithmSHA256 ++
          encSized (hashDigest HashAlgorithmSHA256
            (encU8 contextTypeObject ++ encObjectData ⟨pub, name⟩ ++
              encSized tpmBlob)) ++
          encSized (encU8 contextTypeObject ++ encObjectData ⟨pub, name⟩ ++
            encSized tpmBlob))) ∧
    (∀ (tpmBlob : List Nat) (hs : Handle) (u : Bool) (sd : sessionContextData),
      wrapContextBlob tpmBlob (.session hs u sd) =
        .ok (encU16 HashAlgorithmSHA256 ++
          encSized (hashDigest HashAlgorithmSHA256
            (encU8 contextTypeSession ++ encSessionData sd ++
              encSized tpmBlob)) ++
          encSized (encU8 contextTypeSession ++ encSessionData sd ++
            encSized tpmBlob))) := by
  constructor
  · intro tpmBlob ho pub name
    simp [wrapContextBlob, wrapInner, packChecksummed, encRCD,
      resourceContextDataU.contextType, List.append_assoc]
  · intro tpmBlob hs u sd
    simp [wrapContextBlob, wrapInner, packChecksummed, encRCD,
      resourceContextDataU.contextType, List.append_assoc]

/-! ## C4: the cross-validation rules -/

set_option maxHeartbeats 1600000 in
/-- C4: after the checksum passes, the per-variant cross-validation accepts
exactly the blobs satisfying the spec's rules (transient handle type and
matching Name for objects; the session handle-type, audit, hash, type,
sub-type, bound-entity, key-size, nonce-size and symmetric-mode rules for
sessions), and every rejection is an integrity (`loadError`) error. -/
theorem validateContextData_matches_spec_rules :
    ∀ (sh : Handle) (d : resourceContextData),
      (validateContextData sh d = none ↔ contextRulesOk sh d) ∧
      (∀ e, validateContextData sh d = some e → ∃ s, e = Err.loadError s) := by
  intro sh d
  refine ⟨validateContextData_none_iff sh d, ?_⟩
  intro e he
  obtain ⟨data, blob⟩ := d
  cases data <;>
    simp only [validateContextData] at he <;>
    split_ifs at he <;>
    first
    | exact Option.noConfusion he
    | exact ⟨_, (Option.some.inj he).symm⟩

/-- Witness for the C4 theorem: a valid session blob is accepted, and the
rejection of an object blob with a non-transient saved handle is an
integrity error. -/
theorem validateContextData_matches_spec_rules_witness :
    validateContextData sampleSessionHandle ⟨.session sampleSessionData, [7]⟩ =
      none ∧
    (∃ s, Err.loadError "cannot load context: inconsistent handle type" =
      Err.loadError s) :=
  ⟨(validateContextData_matches_spec_rules sampleSessionHandle
      ⟨.session sampleSessionData, [7]⟩).1.mpr (by decide),
    (validateContextData_matches_spec_rules 0
      ⟨.object ⟨samplePublic, []⟩, []⟩).2 _ (by decide)⟩

/-! ## Inversion of a successful ContextLoad -/

theorem contextLoad_ok_inv (st : TPMState) (octx : Option Context)
    (resp : Context → Except Err Handle) (st' : TPMState) (rc : HandleContext)
    (sent : Context) (h : ContextLoad st octx resp = .ok (st', rc, sent)) :
    ∃ context d lh, octx = some context ∧ contextLoadPre context = .ok d ∧
      contextLoadFinish st context d lh = .ok (st', rc) := by
  cases octx with
  | none => exact absurd h (by simp [ContextLoad])
  | some context =>
    simp only [ContextLoad] at h
    cases hpre : contextLoadPre context with
    | error e => rw [hpre] at h; exact absurd h (by simp)
    | ok d =>
      rw [hpre] at h
      simp only at h
      cases hresp : resp ⟨context.Sequence, context.SavedHandle,
          context.Hierarchy, d.TPMBlob⟩ with
      | error e => rw [hresp] at h; exact absurd h (by simp)
      | ok lh =>
        rw [hresp] at h
        simp only at h
        cases hfin : contextLoadFinish st context d lh with
        | error e => rw [hfin] at h; exact absurd h (by simp)
        | ok p =>
          obtain ⟨pst, prc⟩ := p
          rw [hfin] at h
          simp only [Except.ok.injEq, Prod.mk.injEq] at h
          exact ⟨context, d, lh, rfl, hpre,
            by rw [hfin, h.1, h.2.1]⟩

/-- With the pre-command stage fixed, `ContextLoad` is the post-command
stage applied to the handle the device returned. -/
theorem contextLoad_steps (st : TPMState) (context : Context)
    (d : resourceContextData) (lh : Handle)
    (hpre : contextLoadPre context = .ok d) :
    ContextLoad st (some context) (fun _ => .ok lh) =
      match contextLoadFinish st context d lh with
      | .error e => .error e
      | .ok (st', rc) => .ok (st', rc, ⟨context.Sequence, context.SavedHandle,
          context.Hierarchy, d.TPMBlob⟩) := by
  simp [ContextLoad, hpre]

/-! ## C5: session usability across save and load -/

/-- C5: a successful `ContextSave` of a session leaves the session context
unusable; `ContextSave` of an already-unusable session fails with the
invalid-parameter error whatever the device would answer (the command is
not run); and any session context returned by a successful `ContextLoad`
is usable. -/
theorem contextSave_contextLoad_usability :
    (∀ (h : Handle) (sd : sessionContextData) (resp : Except Err Context)
        (out : HandleContext × Context),
      ContextSave (.session h true sd) resp = .ok out →
      out.1 = .session h false sd) ∧
    (∀ (h : Handle) (sd : sessionContextData) (resp : Except Err Context),
      ContextSave (.session h false sd) resp =
        .error (.invalidParam "saveContext: unusable session HandleContext")) ∧
    (∀ (st : TPMState) (octx : Option Context)
        (resp : Context → Except Err Handle) (st' : TPMState)
        (rc : HandleContext) (sent : Context) (h : Handle) (u : Bool)
        (sd : sessionContextData),
      ContextLoad st octx resp = .ok (st', rc, sent) →
      rc = .session h u sd →
      u = true) := by
  refine ⟨?_, ?_, ?_⟩
  · intro h sd resp out hsave
    cases resp with
    | error e => exact absurd hsave (by simp [ContextSave])
    | ok ctx =>
      simp only [ContextSave, wrapContextBlob, wrapInner] at hsave
      rw [← Except.ok.inj hsave]
  · intro h sd resp
    rfl
  · intro st octx resp st' rc sent h u sd hload hrc
    obtain ⟨context, d, lh, -, -, hfin⟩ :=
      contextLoad_ok_inv st octx resp st' rc sent hload
    cases hd : d.Data with
    | object dd =>
      simp only [contextLoadFinish, hd] at hfin
      split_ifs at hfin
      all_goals
        first
        | exact absurd hfin (fun hc => Except.noConfusion hc)
        | (have h2 := congrArg Prod.snd (Except.ok.inj hfin)
           rw [hrc] at h2
           exact absurd h2 (fun hc => HandleContext.noConfusion hc))
    | session dd =>
      simp only [contextLoadFinish, hd] at hfin
      split_ifs at hfin
      all_goals
        first
        | exact absurd hfin (fun hc => Except.noConfusion hc)
        | (have h2 := congrArg Prod.snd (Except.ok.inj hfin)
           rw [hrc] at h2
           simp only [HandleContext.session.injEq] at h2
           exact h2.2.1.symm)

set_option maxRecDepth 10000 in
/-- Witness for C5: a concrete usable session saves to an unusable one, a
concrete unusable session is rejected before the command runs, and a
concrete load returns a usable session. -/
theorem contextSave_contextLoad_usability_witness :
    ((HandleContext.session sampleSessionHandle false sampleSessionData,
        (⟨5, sampleSessionHandle, 0,
          packChecksummed (encRCD ⟨.session sampleSessionData, [7]⟩)⟩ : Context)) :
       HandleContext × Context).1 =
      .session sampleSessionHandle false sampleSessionData ∧
    ContextSave (.session sampleSessionHandle false sampleSessionData)
        (.ok ⟨5, sampleSessionHandle, 0, [7]⟩) =
      .error (.invalidParam "saveContext: unusable session HandleContext") ∧
    true = true :=
  ⟨contextSave_contextLoad_usability.1 sampleSessionHandle sampleSessionData
      (.ok ⟨5, sampleSessionHandle, 0, [7]⟩)
      (.session sampleSessionHandle false sampleSessionData,
        ⟨5, sampleSessionHandle, 0,
          packChecksummed (encRCD ⟨.session sampleSessionData, [7]⟩)⟩)
      (by decide),
    contextSave_contextLoad_usability.2.1 sampleSessionHandle sampleSessionData
      (.ok ⟨5, sampleSessionHandle, 0, [7]⟩),
    contextSave_contextLoad_usability.2.2 ⟨[], none⟩
      (some ⟨0, sampleSessionHandle, 0, exBlob⟩)
      (fun _ => .ok sampleSessionHandle)
      ⟨[(sampleSessionHandle,
          .session sampleSessionHandle true exRestoredData)], none⟩
      (.session sampleSessionHandle true exRestoredData)
      ⟨0, sampleSessionHandle, 0, [7]⟩ sampleSessionHandle true exRestoredData
      (by decide) rfl⟩

/-! ## C6: exclusivity is only honoured for the tracked exclusive session -/

/-- C6: whenever a successful `ContextLoad` returns a session context whose
exclusive flag is set, the loaded handle had a live registry entry and is
the `TPMContext`'s currently tracked exclusive session; a reload never
grants exclusivity to any other session. -/
theorem contextLoad_exclusive_only_if_tracked :
    ∀ (st : TPMState) (octx : Option Context)
      (resp : Context → Except Err Handle) (st' : TPMState)
      (rc : HandleContext) (sent : Context) (h : Handle) (u : Bool)
      (sd : sessionContextData),
      ContextLoad st octx resp = .ok (st', rc, sent) →
      rc = .session h u sd →
      sd.IsExclusive = true →
      (lookupResource st h).isSome = true ∧ st.exclusiveSession = some h := by
  intro st octx resp st' rc sent h u sd hload hrc hex
  obtain ⟨context, d, lh, -, -, hfin⟩ :=
    contextLoad_ok_inv st octx resp st' rc sent hload
  cases hd : d.Data with
  | object dd =>
    simp only [contextLoadFinish, hd] at hfin
    split_ifs at hfin
    all_goals
      first
      | exact absurd hfin (fun hc => Except.noConfusion hc)
      | (have h2 := congrArg Prod.snd (Except.ok.inj hfin)
         rw [hrc] at h2
         exact absurd h2 (fun hc => HandleContext.noConfusion hc))
  | session dd =>
    simp only [contextLoadFinish, hd] at hfin
    split_ifs at hfin
    all_goals
      first
      | exact absurd hfin (fun hc => Except.noConfusion hc)
      | (have h2 := congrArg Prod.snd (Except.ok.inj hfin)
         rw [hrc] at h2
         simp only [HandleContext.session.injEq] at h2
         obtain ⟨hlh, hu, hsd⟩ := h2
         rw [← hsd] at hex
         simp only [Bool.and_eq_true, beq_iff_eq] at hex
         rw [← hlh]
         exact ⟨hex.2.1, hex.2.2⟩)

set_option maxRecDepth 10000 in
/-- Witness for C6: reloading the exclusive session blob into a state that
still holds that session as its tracked exclusive session satisfies the
conclusion. -/
theorem contextLoad_exclusive_only_if_tracked_witness :
    (lookupResource ⟨[(sampleSessionHandle,
        .session sampleSessionHandle false exSessionData)],
        some sampleSessionHandle⟩ sampleSessionHandle).isSome = true ∧
    TPMState.exclusiveSession ⟨[(sampleSessionHandle,
        .session sampleSessionHandle false exSessionData)],
        some sampleSessionHandle⟩ = some sampleSessionHandle :=
  contextLoad_exclusive_only_if_tracked
    ⟨[(sampleSessionHandle, .session sampleSessionHandle false exSessionData)],
      some sampleSessionHandle⟩
    (some ⟨0, sampleSessionHandle, 0, exBlob⟩)
    (fun _ => .ok sampleSessionHandle)
    ⟨[(sampleSessionHandle, .session sampleSessionHandle true exSessionData)],
      some sampleSessionHandle⟩
    (.session sampleSessionHandle true exSessionData)
    ⟨0, sampleSessionHandle, 0, [7]⟩ sampleSessionHandle true exSessionData
    (by decide) rfl rfl

/-! ## C9: the handle returned by the TPM is validated -/

/-- C9: after a successful pre-command stage, a session blob whose loaded
handle differs from the saved handle fails with the invalid-response
error, and an object blob whose loaded handle is not transient fails with
the invalid-response error (in both cases nothing is added to the
registry: the call returns no new state). -/
theorem contextLoad_validates_returned_handle :
    (∀ (st : TPMState) (context : Context) (d : resourceContextData)
        (dd : sessionContextData) (lh : Handle),
      contextLoadPre context = .ok d →
      d.Data = .session dd →
      lh ≠ context.SavedHandle →
      ContextLoad st (some context) (fun _ => .ok lh) =
        .error (.invalidResponse "handle returned from TPM is incorrect")) ∧
    (∀ (st : TPMState) (context : Context) (d : resourceContextData)
        (dd : objectContextData) (lh : Handle),
      contextLoadPre context = .ok d →
      d.Data = .object dd →
      handleType lh ≠ HandleTypeTransient →
      ContextLoad st (some context) (fun _ => .ok lh) =
        .error (.invalidResponse "handle returned from TPM is the wrong type")) := by
  constructor
  · intro st context d dd lh hpre hd hne
    rw [contextLoad_steps st context d lh hpre]
    simp [contextLoadFinish, hd, hne]
  · intro st context d dd lh hpre hd hty
    rw [contextLoad_steps st context d lh hpre]
    simp [contextLoadFinish, hd, hty]

set_option maxRecDepth 10000 in
/-- Witness for C9: a concrete session blob loaded with a wrong handle and
a concrete object blob loaded with a non-transient handle are both
rejected. -/
theorem contextLoad_validates_returned_handle_witness :
    ContextLoad ⟨[], none⟩ (some ⟨0, sampleSessionHandle, 0, exBlob⟩)
        (fun _ => .ok 999) =
      .error (.invalidResponse "handle returned from TPM is incorrect") ∧
    ContextLoad ⟨[], none⟩ (some ⟨0, sampleObjectHandle, 0, sampleObjectBlob⟩)
        (fun _ => .ok 5) =
      .error (.invalidResponse "handle returned from TPM is the wrong type") :=
  ⟨contextLoad_validates_returned_handle.1 ⟨[], none⟩
      ⟨0, sampleSessionHandle, 0, exBlob⟩ ⟨.session exSessionData, [7]⟩
      exSessionData 999 (by decide) rfl (by decide),
    contextLoad_validates_returned_handle.2 ⟨[], none⟩
      ⟨0, sampleObjectHandle, 0, sampleObjectBlob⟩
      ⟨.object ⟨samplePublic, publicName samplePublic⟩, [9]⟩
      ⟨samplePublic, publicName samplePublic⟩ 5 (by decide) rfl (by decide)⟩

/-! ## C7: Startup evicts exactly the non-exempt registry entries -/

theorem startupLoop_subset (l : List (Handle × HandleContext)) :
    ∀ (rs : List (Handle × HandleContext)) (e : Handle × HandleContext),
      e ∈ startupLoop l rs → e ∈ rs := by
  induction l with
  | nil => intro rs e he; simpa [startupLoop] using he
  | cons f rest ih =>
    intro rs e he
    simp only [startupLoop] at he
    by_cases hf : exemptOnStartup f.2
    · rw [if_pos hf] at he
      exact ih rs e he
    · rw [if_neg hf] at he
      have := ih _ e he
      simp only [evictHandle, List.mem_filter] at this
      exact this.1

theorem startupLoop_mem (l : List (Handle × HandleContext)) :
    ∀ (rs : List (Handle × HandleContext)) (e : Handle × HandleContext),
      e ∈ rs →
      (∀ f ∈ l, exemptOnStartup f.2 = false → e.1 ≠ f.2.handle) →
      e ∈ startupLoop l rs := by
  induction l with
  | nil => intro rs e he _; simpa [startupLoop] using he
  | cons f rest ih =>
    intro rs e he hall
    simp only [startupLoop]
    by_cases hf : exemptOnStartup f.2
    · rw [if_pos hf]
      exact ih rs e he (fun g hg hgne => hall g (List.mem_cons_of_mem f hg) hgne)
    · rw [if_neg hf]
      have hf' : exemptOnStartup f.2 = false := by simpa using hf
      apply ih
      · simp only [evictHandle, List.mem_filter, decide_eq_true_eq]
        exact ⟨he, hall f (List.mem_cons_self f rest) hf'⟩
      · exact fun g hg hgne => hall g (List.mem_cons_of_mem f hg) hgne

theorem startupLoop_not_mem (l : List (Handle × HandleContext)) :
    ∀ (rs : List (Handle × HandleContext)) (e : Handle × HandleContext),
      e ∈ l → exemptOnStartup e.2 = false → e.1 = e.2.handle →
      e ∉ startupLoop l rs := by
  induction l with
  | nil => intro rs e hel; cases hel
  | cons f rest ih =>
    intro rs e hel hne hkey
    rcases List.mem_cons.mp hel with heq | hel'
    · subst heq
      simp only [startupLoop]
      rw [if_neg (by simp [hne])]
      intro hmem
      have hsub := startupLoop_subset rest _ e hmem
      simp only [evictHandle, List.mem_filter, decide_eq_true_eq] at hsub
      exact hsub.2 hkey
    · simp only [startupLoop]
      intro hmem
      exact ih _ e hel' hne hkey hmem

/-- C7: after a successful `Startup`, on a well-keyed registry, every
surviving entry has a PCR, NV index, permanent or persistent handle type
and was already in the registry, and every entry with one of those four
types survives unchanged. -/
theorem startup_evicts_exactly_nonexempt :
    ∀ (st : TPMState) (ty : Nat) (st' : TPMState),
      (∀ e ∈ st.resources, e.1 = e.2.handle) →
      (st.resources.map Prod.fst).Nodup →
      Startup st ty (.ok ()) = .ok st' →
      (∀ e ∈ st'.resources, exemptOnStartup e.2 = true ∧ e ∈ st.resources) ∧
      (∀ e ∈ st.resources, exemptOnStartup e.2 = true → e ∈ st'.resources) := by
  intro st ty st' hkeys hnodup hrun
  have hst' : st' = { st with resources := startupLoop st.resources st.resources } :=
    (Except.ok.inj hrun).symm
  subst hst'
  constructor
  · intro e he
    have hin : e ∈ st.resources := startupLoop_subset _ _ e he
    refine ⟨?_, hin⟩
    by_contra hnex
    have hne : exemptOnStartup e.2 = false := by simpa using hnex
    exact startupLoop_not_mem st.resources st.resources e hin hne
      (hkeys e hin) he
  · intro e he hex
    apply startupLoop_mem _ _ e he
    intro f hf hfne heq
    have hf1 : f.1 = f.2.handle := hkeys f hf
    have hef : e = f :=
      List.inj_on_of_nodup_map hnodup he hf (by rw [heq, hf1])
    rw [hef, hfne] at hex
    exact Bool.noConfusion hex

/-- Witness for C7: a registry holding a session, a transient object and a
permanent entry keeps exactly the permanent entry across `Startup`. -/
theorem startup_evicts_exactly_nonexempt_witness :
    (∀ e ∈ (startupLoop
        [(sampleSessionHandle, .session sampleSessionHandle true sampleSessionData),
         (1073741825, .other 1073741825),
         (sampleObjectHandle, .object sampleObjectHandle samplePublic [])]
        [(sampleSessionHandle, .session sampleSessionHandle true sampleSessionData),
         (1073741825, .other 1073741825),
         (sampleObjectHandle, .object sampleObjectHandle samplePublic [])]),
      exemptOnStartup e.2 = true ∧
        e ∈ [(sampleSessionHandle,
                HandleContext.session sampleSessionHandle true sampleSessionData),
             (1073741825, .other 1073741825),
             (sampleObjectHandle, .object sampleObjectHandle samplePublic [])]) ∧
    (∀ e ∈ [(sampleSessionHandle,
              HandleContext.session sampleSessionHandle true sampleSessionData),
            (1073741825, .other 1073741825),
            (sampleObjectHandle, .object sampleObjectHandle samplePublic [])],
      exemptOnStartup e.2 = true →
        e ∈ (startupLoop
          [(sampleSessionHandle, .session sampleSessionHandle true sampleSessionData),
           (1073741825, .other 1073741825),
           (sampleObjectHandle, .object sampleObjectHandle samplePublic [])]
          [(sampleSessionHandle, .session sampleSessionHandle true sampleSessionData),
           (1073741825, .other 1073741825),
           (sampleObjectHandle, .object sampleObjectHandle samplePublic [])])) :=
  startup_evicts_exactly_nonexempt
    ⟨[(sampleSessionHandle, .session sampleSessionHandle true sampleSessionData),
      (1073741825, .other 1073741825),
      (sampleObjectHandle, .object sampleObjectHandle samplePublic [])], none⟩
    0
    ⟨startupLoop
      [(sampleSessionHandle, .session sampleSessionHandle true sampleSessionData),
       (1073741825, .other 1073741825),
       (sampleObjectHandle, .object sampleObjectHandle samplePublic [])]
      [(sampleSessionHandle, .session sampleSessionHandle true sampleSessionData),
       (1073741825, .other 1073741825),
       (sampleObjectHandle, .object sampleObjectHandle samplePublic [])], none⟩
    (by decide) (by decide) rfl

/-! ## C8: the expiration sign convention for policy assertions -/

/-- C8: a successful `PolicySecret` or `PolicySigned` with a non-negative
expiration returns an empty timeout and a null-hierarchy ticket; with a
negative expiration it returns a non-empty timeout and an owner-hierarchy
ticket. -/
theorem policyAssertion_expiration_convention :
    ∀ (authName policyRef : List Nat) (expiration : Int),
      (0 ≤ expiration →
        (PolicySecret authName policyRef expiration).1 = [] ∧
        (PolicySecret authName policyRef expiration).2.Hierarchy = HandleNull ∧
        (PolicySigned authName policyRef expiration).1 = [] ∧
        (PolicySigned authName policyRef expiration).2.Hierarchy = HandleNull) ∧
      (expiration < 0 →
        (PolicySecret authName policyRef expiration).1 ≠ [] ∧
        (PolicySecret authName policyRef expiration).2.Hierarchy = HandleOwner ∧
        (PolicySigned authName policyRef expiration).1 ≠ [] ∧
        (PolicySigned authName policyRef expiration).2.Hierarchy = HandleOwner) := by
  intro authName policyRef e
  constructor
  · intro he
    simp [PolicySecret, PolicySigned, policyAssertionTimeout,
      policyAssertionHierarchy, he]
  · intro he
    have hne : ¬(0 ≤ e) := by omega
    simp [PolicySecret, PolicySigned, policyAssertionTimeout,
      policyAssertionHierarchy, hne, encU32]

/-- Witness for C8: the test's concrete expirations, `100` and `-60`. -/
theorem policyAssertion_expiration_convention_witness :
    ((PolicySecret [] [] 100).1 = [] ∧
      (PolicySecret [] [] 100).2.Hierarchy = HandleNull ∧
      (PolicySigned [] [] 100).1 = [] ∧
      (PolicySigned [] [] 100).2.Hierarchy = HandleNull) ∧
    ((PolicySecret [] [] (-60)).1 ≠ [] ∧
      (PolicySecret [] [] (-60)).2.Hierarchy = HandleOwner ∧
      (PolicySigned [] [] (-60)).1 ≠ [] ∧
      (PolicySigned [] [] (-60)).2.Hierarchy = HandleOwner) :=
  ⟨(policyAssertion_expiration_convention [] [] 100).1 (by decide),
    (policyAssertion_expiration_convention [] [] (-60)).2 (by decide)⟩

/-! ## C10: Create argument handling -/

/-- C10: `Create` with a nil parent handle or a nil public area fails with
the invalid-parameter error before the resource check or any TPM command
runs, whatever they would return; a nil sensitive-create argument behaves
exactly as an empty `SensitiveCreate` value. -/
theorem create_nil_argument_handling :
    (∀ (inSensitive : Option SensitiveCreate) (inPublic : Option Public)
        (oi pcr : List Nat) (check : Handle → Option Err)
        (run : CreateArgs → Except Err CreateResult),
      Create none inSensitive inPublic oi pcr check run =
        .error (.invalidParam "nil parentHandle")) ∧
    (∀ (ph : Handle) (inSensitive : Option SensitiveCreate) (oi pcr : List Nat)
        (check : Handle → Option Err)
        (run : CreateArgs → Except Err CreateResult),
      Create (some ph) inSensitive none oi pcr check run =
        .error (.invalidParam "nil inPublic")) ∧
    (∀ (ph : Option Handle) (inPublic : Option Public) (oi pcr : List Nat)
        (check : Handle → Option Err)
        (run : CreateArgs → Except Err CreateResult),
      Create ph none inPublic oi pcr check run =
        Create ph (some emptySensitiveCreate) inPublic oi pcr check run) := by
  refine ⟨fun _ _ _ _ _ _ => rfl, fun _ _ _ _ _ _ => rfl, ?_⟩
  intro ph inPublic oi pcr check run
  cases ph <;> rfl

end TPM2
